import Mathlib

/-!
Verification of the presentation-mode utility.

Shallow embedding of the core logic of the repository:
  * `display.py` — parsing displayplacer output and selecting display modes,
  * `windows.py` — window enumeration, filtering and tiling,
  * `config.py`  — padding constants,
  * `cli.py`     — the enter / exit orchestration.

Text lines of displayplacer output are embedded as the record of observations
the Python code makes of a line (substring tests and regex-match results);
every other function is translated directly from the source.
-/

namespace PresentationMode

/-- A display mode, as assembled by `get_available_modes` in display.py from one
catalog line: mode id (string), width, height, refresh rate, and whether the
line carries `scaling:on`. -/
structure Mode where
  id : String
  width : Int
  height : Int
  hz : Int
  scaled : Bool
deriving DecidableEq

/-- Padding constant from config.py (`PADDING_TOP = 12`). -/
def PADDING_TOP : Int := 12

/-- Padding constant from config.py (`PADDING_BOTTOM = 12`). -/
def PADDING_BOTTOM : Int := 12

/-- Padding constant from config.py (`PADDING_HORIZONTAL = 12`). -/
def PADDING_HORIZONTAL : Int := 12

/-- Modelled from the spec: `PRESENTATION_TARGET_WIDTH` is imported by
display.py from config.py but missing from the config.py under src/; the
spec's mode-selection examples and the `DISPLAYS` table use a presentation
width of 1280. -/
def PRESENTATION_TARGET_WIDTH : Int := 1280

/-- Modelled from the spec: `NORMAL_WIDTH` is imported by display.py from
config.py but missing from the config.py under src/; display.py's docstring
("normal resolution (2560x1440)") and the `DISPLAYS` table give 2560. -/
def NORMAL_WIDTH : Int := 2560

/-- Modelled from the spec: `NORMAL_HEIGHT` is imported by display.py from
config.py but missing from the config.py under src/; display.py's docstring
("normal resolution (2560x1440)") and the `DISPLAYS` table give 1440. -/
def NORMAL_HEIGHT : Int := 1440

/-- Python's builtin `min(xs, key=key)` on a nonempty list `m :: ms`: scan
left to right, replacing the running best exactly when the key is strictly
smaller, so the first element attaining the minimum wins. -/
def pyMin (key : Mode → Nat) (m : Mode) (ms : List Mode) : Mode :=
  ms.foldl (fun best x => if key x < key best then x else best) m

/-- The key used by `find_presentation_mode`: `abs(m["width"] - target)`. -/
def widthDist (target : Int) (m : Mode) : Nat :=
  (m.width - target).natAbs

/-- Body of `find_presentation_mode` (display.py lines 109-132) over an
already-parsed mode list: bind `scaled_modes` to the scaled-only sublist,
return `none` when it is empty, otherwise Python `min` by distance of width to
the target. -/
def find_presentation_mode_core (target : Int) (modes : List Mode) : Option Mode :=
  match modes.filter (fun m => m.scaled) with
  | [] => none
  | m :: ms => some (pyMin (widthDist target) m ms)

lemma pyMin_cons (key : Mode → Nat) (m x : Mode) (xs : List Mode) :
    pyMin key m (x :: xs) = pyMin key (if key x < key m then x else m) xs := rfl

lemma pyMin_key_le (key : Mode → Nat) (ms : List Mode) :
    ∀ m : Mode, key (pyMin key m ms) ≤ key m := by
  induction ms with
  | nil => intro m; exact Nat.le_refl _
  | cons x xs ih =>
    intro m
    rw [pyMin_cons]
    by_cases h : key x < key m
    · rw [if_pos h]
      exact Nat.le_trans (ih x) (Nat.le_of_lt h)
    · rw [if_neg h]
      exact ih m

lemma pyMin_split (key : Mode → Nat) (ms : List Mode) :
    ∀ m : Mode, ∃ l1 l2 : List Mode,
      m :: ms = l1 ++ pyMin key m ms :: l2 ∧
      (∀ x ∈ l1, key (pyMin key m ms) < key x) ∧
      (∀ x ∈ l2, key (pyMin key m ms) ≤ key x) := by
  induction ms with
  | nil =>
    intro m
    refine ⟨[], [], rfl, ?_, ?_⟩ <;> simp
  | cons x xs ih =>
    intro m
    rw [pyMin_cons]
    by_cases h : key x < key m
    · rw [if_pos h]
      obtain ⟨l1, l2, hsplit, hlt, hle⟩ := ih x
      refine ⟨m :: l1, l2, ?_, ?_, hle⟩
      · exact congrArg (List.cons m) hsplit
      · intro y hy
        rcases List.mem_cons.mp hy with hy | hy
        · subst hy
          exact Nat.lt_of_le_of_lt (pyMin_key_le key xs x) h
        · exact hlt y hy
    · rw [if_neg h]
      obtain ⟨l1, l2, hsplit, hlt, hle⟩ := ih m
      have hmle : key m ≤ key x := Nat.le_of_not_lt h
      cases l1 with
      | nil =>
        have hm : pyMin key m xs = m := by
          simpa using (congrArg (fun l => l.head?) hsplit).symm
        have hxs : xs = l2 := by
          simpa using congrArg (fun l => l.tail) hsplit
        refine ⟨[], x :: xs, ?_, ?_, ?_⟩
        · rw [hm]
          rfl
        · simp
        · intro y hy
          rcases List.mem_cons.mp hy with hy | hy
          · subst hy; rw [hm]; exact hmle
          · exact hle y (hxs ▸ hy)
      | cons z l1t =>
        have hz : m = z := by
          simpa using congrArg (fun l => l.head?) hsplit
        have hxs : xs = l1t ++ pyMin key m xs :: l2 := by
          simpa using congrArg (fun l => l.tail) hsplit
        have hmlt : key (pyMin key m xs) < key m := by
          have := hlt z (by simp)
          rwa [← hz] at this
        refine ⟨m :: x :: l1t, l2, ?_, ?_, hle⟩
        · exact congrArg (fun l => m :: x :: l) hxs
        · intro y hy
          rcases List.mem_cons.mp hy with hy | hy
          · subst hy; exact hmlt
          · rcases List.mem_cons.mp hy with hy | hy
            · subst hy; exact Nat.lt_of_lt_of_le hmlt hmle
            · exact hlt y (List.mem_cons.mpr (Or.inr hy))

lemma find_core_eq_nil (target : Int) (modes : List Mode)
    (h : modes.filter (fun m => m.scaled) = []) :
    find_presentation_mode_core target modes = none := by
  unfold find_presentation_mode_core
  rw [h]

lemma find_core_eq_cons (target : Int) (modes : List Mode) (a : Mode) (as : List Mode)
    (h : modes.filter (fun m => m.scaled) = a :: as) :
    find_presentation_mode_core target modes = some (pyMin (widthDist target) a as) := by
  unfold find_presentation_mode_core
  rw [h]

/-- C1: over any parsed mode list and any target width, the presentation-mode
selector considers only modes with `scaled = true`; it returns `none` exactly
when no scaled mode exists, and otherwise returns a scaled member of the list
such that the scaled sublist splits as `l1 ++ best :: l2` with every earlier
scaled mode at strictly greater width-distance and every later scaled mode at
greater-or-equal width-distance — i.e. the first-encountered minimizer of
`abs(width - target)` in catalog order. -/
theorem find_presentation_mode_correct (target : Int) (modes : List Mode) :
    (find_presentation_mode_core target modes = none ↔
      ∀ m ∈ modes, m.scaled = false) ∧
    ∀ b : Mode, find_presentation_mode_core target modes = some b →
      b ∈ modes ∧ b.scaled = true ∧
      ∃ l1 l2 : List Mode,
        modes.filter (fun m => m.scaled) = l1 ++ b :: l2 ∧
        (∀ m ∈ l1, widthDist target b < widthDist target m) ∧
        (∀ m ∈ l2, widthDist target b ≤ widthDist target m) := by
  constructor
  · constructor
    · intro hnone m hm
      rcases hfil : modes.filter (fun m => m.scaled) with _ | ⟨a, as⟩
      · by_contra hsc
        have hsc2 : m.scaled = true := by
          cases hms : m.scaled
          · exact absurd hms hsc
          · rfl
        have hmem : m ∈ modes.filter (fun m => m.scaled) :=
          List.mem_filter.mpr ⟨hm, hsc2⟩
        rw [hfil] at hmem
        cases hmem
      · rw [find_core_eq_cons target modes a as hfil] at hnone
        cases hnone
    · intro hall
      refine find_core_eq_nil target modes ?_
      refine List.filter_eq_nil_iff.mpr ?_
      intro a ha
      simp [hall a ha]
  · intro b hb
    rcases hfil : modes.filter (fun m => m.scaled) with _ | ⟨a, as⟩
    · rw [find_core_eq_nil target modes hfil] at hb
      cases hb
    · rw [find_core_eq_cons target modes a as hfil] at hb
      have hbeq : pyMin (widthDist target) a as = b := Option.some.inj hb
      obtain ⟨l1, l2, hsplit, hlt, hle⟩ := pyMin_split (widthDist target) as a
      rw [hbeq] at hsplit hlt hle
      have hbfil : b ∈ modes.filter (fun m => m.scaled) := by
        rw [hfil, hsplit]
        simp
      have hmem := List.mem_filter.mp hbfil
      refine ⟨hmem.1, by simpa using hmem.2, l1, l2, ?_, hlt, hle⟩
      rw [hfil]
      exact hsplit

/-- The spec's example catalog: scaled 800x600, scaled 1280x720, unscaled
1920x1080. -/
def demoModes : List Mode :=
  [⟨"10", 800, 600, 60, true⟩, ⟨"11", 1280, 720, 60, true⟩, ⟨"12", 1920, 1080, 60, false⟩]

/-- The 1280x720 scaled entry of `demoModes`. -/
def demo1280 : Mode := ⟨"11", 1280, 720, 60, true⟩

/-- Witness for C1: at target 1300 the selector picks the scaled 1280 mode of
the spec's example catalog, and the characterization instantiates there. -/
theorem find_presentation_mode_correct_witness :
    demo1280 ∈ demoModes ∧ demo1280.scaled = true ∧
    ∃ l1 l2 : List Mode,
      demoModes.filter (fun m => m.scaled) = l1 ++ demo1280 :: l2 ∧
      (∀ m ∈ l1, widthDist 1300 demo1280 < widthDist 1300 m) ∧
      (∀ m ∈ l2, widthDist 1300 demo1280 ≤ widthDist 1300 m) :=
  (find_presentation_mode_correct 1300 demoModes).2 demo1280 (by decide)

/-- One line of `displayplacer list` output, embedded as the observations the
parsers in display.py make of it. -/
structure Line where
  /-- Python `serial in line`: whether the given serial id string occurs in
  the line. -/
  containsSerial : String → Bool
  /-- Python `line.startswith("Persistent screen id:")`. -/
  startsPersistent : Bool
  /-- Result of `re.search(r'mode (\d+): res:(\d+)x(\d+) hz:(\d+)', line)`,
  assembled with the `'scaling:on' in line` test into a mode record as in
  `get_available_modes`; `none` when the pattern does not match. -/
  modeMatch : Option Mode
  /-- Python `"Serial screen id:" in line`. -/
  hasSerialLabel : Bool
  /-- Group 1 of `re.search(r'Serial screen id: (s\d+)', line)`; `none` when
  the pattern does not match. -/
  serialIdMatch : Option String
  /-- Python `"main display" in line.lower()`. -/
  mentionsMain : Bool

/-- Loop of `get_available_modes` (display.py lines 44-77): the second
argument is the `in_target_display` flag. A line containing the serial sets
the flag and is otherwise skipped (`continue`); once the flag is set, a
`Persistent screen id:` line breaks the scan, and every line matching the
mode pattern contributes one mode. -/
def getModesGo (serial : String) : List Line → Bool → List Mode
  | [], _ => []
  | l :: ls, in_target_display =>
    if l.containsSerial serial then getModesGo serial ls true
    else if in_target_display then
      if l.startsPersistent then []
      else
        match l.modeMatch with
        | some m => m :: getModesGo serial ls in_target_display
        | none => getModesGo serial ls in_target_display
    else getModesGo serial ls in_target_display

/-- `get_available_modes(serial)` over the lines of the catalog text: scan
with `in_target_display` initially false. -/
def get_available_modes (serial : String) (info : List Line) : List Mode :=
  getModesGo serial info false

lemma getModesGo_skip (serial : String) (p r : List Line)
    (hp : ∀ l ∈ p, l.containsSerial serial = false) :
    getModesGo serial (p ++ r) false = getModesGo serial r false := by
  induction p with
  | nil => rfl
  | cons l ls ih =>
    have hl : l.containsSerial serial = false := hp l (by simp)
    show getModesGo serial (l :: (ls ++ r)) false = _
    rw [getModesGo, hl]
    simp only [Bool.false_eq_true, if_false]
    exact ih (fun x hx => hp x (List.mem_cons.mpr (Or.inr hx)))

lemma getModesGo_section (serial : String) (a : List Line) (b : Line) (rest : List Line)
    (ha1 : ∀ l ∈ a, l.containsSerial serial = false)
    (ha2 : ∀ l ∈ a, l.startsPersistent = false)
    (hb1 : b.containsSerial serial = false)
    (hb2 : b.startsPersistent = true) :
    getModesGo serial (a ++ b :: rest) true = a.filterMap Line.modeMatch := by
  induction a with
  | nil =>
    show getModesGo serial (b :: rest) true = []
    rw [getModesGo, hb1]
    simp only [Bool.false_eq_true, if_false, if_true, hb2]
  | cons l ls ih =>
    have hl1 : l.containsSerial serial = false := ha1 l (by simp)
    have hl2 : l.startsPersistent = false := ha2 l (by simp)
    have ihx := ih (fun x hx => ha1 x (List.mem_cons.mpr (Or.inr hx)))
      (fun x hx => ha2 x (List.mem_cons.mpr (Or.inr hx)))
    show getModesGo serial (l :: (ls ++ b :: rest)) true = _
    rw [getModesGo, hl1]
    simp only [Bool.false_eq_true, if_false, if_true, hl2]
    cases hm : l.modeMatch with
    | none => simpa [List.filterMap_cons, hm] using ihx
    | some m => simpa [List.filterMap_cons, hm] using ihx

/-- C2: when the catalog text consists of a prelude not mentioning the
requested serial, the line carrying that serial, display A's own section
(no serial mention, no `Persistent screen id:` boundary), then the boundary
line opening display B's section followed by the rest of the text, the modes
returned for the requested serial are exactly the mode lines of display A's
section — in particular no mode line of display B's section (inside `rest`)
ever appears. -/
theorem get_available_modes_scoped (serial : String)
    (p a rest : List Line) (l0 b : Line)
    (hp : ∀ l ∈ p, l.containsSerial serial = false)
    (hl0 : l0.containsSerial serial = true)
    (ha1 : ∀ l ∈ a, l.containsSerial serial = false)
    (ha2 : ∀ l ∈ a, l.startsPersistent = false)
    (hb1 : b.containsSerial serial = false)
    (hb2 : b.startsPersistent = true) :
    get_available_modes serial (p ++ l0 :: (a ++ b :: rest)) =
      a.filterMap Line.modeMatch := by
  unfold get_available_modes
  rw [getModesGo_skip serial p (l0 :: (a ++ b :: rest)) hp]
  rw [getModesGo, hl0]
  simp only [if_true]
  exact getModesGo_section serial a b rest ha1 ha2 hb1 hb2

/-- A catalog line carrying display A's serial id `sA`. -/
def lineSerialA : Line :=
  { containsSerial := fun s => s == "sA", startsPersistent := false,
    modeMatch := none, hasSerialLabel := true, serialIdMatch := some "sA",
    mentionsMain := false }

/-- A mode line inside display A's section. -/
def lineModeA : Line :=
  { containsSerial := fun _ => false, startsPersistent := false,
    modeMatch := some ⟨"1", 1280, 720, 60, true⟩, hasSerialLabel := false,
    serialIdMatch := none, mentionsMain := false }

/-- The `Persistent screen id:` line opening display B's section. -/
def linePersistB : Line :=
  { containsSerial := fun _ => false, startsPersistent := true,
    modeMatch := none, hasSerialLabel := false, serialIdMatch := none,
    mentionsMain := false }

/-- A mode line inside display B's section. -/
def lineModeB : Line :=
  { containsSerial := fun _ => false, startsPersistent := false,
    modeMatch := some ⟨"7", 1920, 1080, 60, false⟩, hasSerialLabel := false,
    serialIdMatch := none, mentionsMain := false }

/-- Witness for C2: a concrete two-display catalog; display A's mode list is
exactly its own section's single mode, excluding display B's mode line. -/
theorem get_available_modes_scoped_witness :
    get_available_modes "sA" ([] ++ lineSerialA :: ([lineModeA] ++ linePersistB :: [lineModeB])) =
      [lineModeA].filterMap Line.modeMatch :=
  get_available_modes_scoped "sA" [] [lineModeA] [lineModeB] lineSerialA linePersistB
    (by intro l hl; cases hl) (by decide)
    (by intro l hl; rcases List.mem_singleton.mp hl with rfl; rfl)
    (by intro l hl; rcases List.mem_singleton.mp hl with rfl; rfl)
    rfl rfl

/-- Body of `find_mode_for_resolution` (display.py lines 135-152) over an
already-parsed mode list: return the first mode whose width and height equal
the targets and whose scaled flag is set, else `none`. -/
def find_mode_for_resolution_core (width height : Int) : List Mode → Option Mode
  | [] => none
  | mode :: rest =>
    if mode.width = width ∧ mode.height = height ∧ mode.scaled = true then some mode
    else find_mode_for_resolution_core width height rest

/-- `find_mode_for_resolution(serial, width, height)`: parse the catalog for
the serial's modes, then scan for the first exact scaled match. -/
def find_mode_for_resolution (serial : String) (width height : Int)
    (info : List Line) : Option Mode :=
  find_mode_for_resolution_core width height (get_available_modes serial info)

/-- C6: over any parsed mode list and target (width, height), the exact-mode
selector returns `none` exactly when no mode matches width, height and
scaled=true simultaneously, and when it returns a mode that mode matches
exactly (so a scaled mode with matching width but different height is never
returned) and is the first match in catalog order. -/
theorem find_mode_for_resolution_correct (width height : Int) (modes : List Mode) :
    (find_mode_for_resolution_core width height modes = none ↔
      ∀ m ∈ modes, ¬(m.width = width ∧ m.height = height ∧ m.scaled = true)) ∧
    ∀ m : Mode, find_mode_for_resolution_core width height modes = some m →
      m.width = width ∧ m.height = height ∧ m.scaled = true ∧
      ∃ l1 l2 : List Mode, modes = l1 ++ m :: l2 ∧
        ∀ x ∈ l1, ¬(x.width = width ∧ x.height = height ∧ x.scaled = true) := by
  induction modes with
  | nil =>
    refine ⟨⟨fun _ m hm => absurd hm (List.not_mem_nil m), fun _ => rfl⟩, ?_⟩
    intro m hm
    cases hm
  | cons a as ih =>
    by_cases ha : a.width = width ∧ a.height = height ∧ a.scaled = true
    · have hstep : find_mode_for_resolution_core width height (a :: as) = some a := by
        rw [find_mode_for_resolution_core, if_pos ha]
      constructor
      · constructor
        · intro hnone
          rw [hstep] at hnone
          cases hnone
        · intro hall
          exact absurd ha (hall a (by simp))
      · intro m hm
        rw [hstep] at hm
        rcases Option.some.inj hm with rfl
        exact ⟨ha.1, ha.2.1, ha.2.2, [], as, rfl, by simp⟩
    · have hstep : find_mode_for_resolution_core width height (a :: as) =
          find_mode_for_resolution_core width height as := by
        rw [find_mode_for_resolution_core, if_neg ha]
      constructor
      · rw [hstep]
        constructor
        · intro hnone m hm
          rcases List.mem_cons.mp hm with rfl | hm
          · exact ha
          · exact (ih.1.mp hnone) m hm
        · intro hall
          exact ih.1.mpr (fun m hm => hall m (List.mem_cons.mpr (Or.inr hm)))
      · intro m hm
        rw [hstep] at hm
        obtain ⟨h1, h2, h3, l1, l2, hsplit, hfirst⟩ := ih.2 m hm
        refine ⟨h1, h2, h3, a :: l1, l2, by rw [List.cons_append, hsplit], ?_⟩
        intro x hx
        rcases List.mem_cons.mp hx with rfl | hx
        · exact ha
        · exact hfirst x hx

/-- The spec's exact-mode example: an unscaled 2560x1440, a scaled 2560x1200
(matching width, different height), then a scaled 2560x1440. -/
def exactDemoModes : List Mode :=
  [⟨"20", 2560, 1440, 60, false⟩, ⟨"21", 2560, 1200, 60, true⟩, ⟨"22", 2560, 1440, 60, true⟩]

/-- The scaled 2560x1440 entry of `exactDemoModes`. -/
def exactDemoHit : Mode := ⟨"22", 2560, 1440, 60, true⟩

/-- Witness for C6: on the example catalog with target (2560, 1440) the
selector skips the unscaled 2560x1440 and the scaled 2560x1200 and returns
the scaled 2560x1440 entry. -/
theorem find_mode_for_resolution_correct_witness :
    exactDemoHit.width = 2560 ∧ exactDemoHit.height = 1440 ∧ exactDemoHit.scaled = true ∧
    ∃ l1 l2 : List Mode, exactDemoModes = l1 ++ exactDemoHit :: l2 ∧
      ∀ x ∈ l1, ¬(x.width = 2560 ∧ x.height = 1440 ∧ x.scaled = true) :=
  (find_mode_for_resolution_correct 2560 1440 exactDemoModes).2 exactDemoHit (by decide)

/-- The bounds dictionary of a Quartz window (`kCGWindowBounds`), with the
X/Y/Width/Height entries; CGFloat values are embedded as rationals. -/
structure Bounds where
  x : ℚ
  y : ℚ
  width : ℚ
  height : ℚ
deriving DecidableEq

/-- One entry of `CGWindowListCopyWindowInfo`: the fields windows.py reads.
`layer` and `ownerName` are read with defaults (`window.get(key, 0)` /
`window.get(key, "")`), so they are embedded as plain fields; `bounds` may be
absent (`window.get(kCGWindowBounds)` returning None). -/
structure CGWindow where
  layer : Int
  ownerName : String
  bounds : Option Bounds
  ownerPID : Int
  windowNumber : Int
deriving DecidableEq

/-- The fixed denylist `SKIP_APPS` of windows.py. -/
def SKIP_APPS : List String :=
  ["Dock", "Window Server", "WindowManager", "Control Center",
   "Notification Center", "Spotlight", "SystemUIServer", "Finder",
   "universalAccessAuthWarn", "AXVisualSupportAgent", "TextInputMenuAgent",
   "Raycast"]

/-- The dictionary appended to the result list by `get_windows_on_display`. -/
structure WinEntry where
  app_name : String
  pid : Int
  window_id : Int
  bounds : Bounds
deriving DecidableEq

/-- The per-window body of the loop in `get_windows_on_display` (windows.py
lines 78-111): each `continue` becomes `none`; the surviving window yields the
appended entry. Checks in source order: layer ≠ 0, denylisted owner name,
missing bounds, horizontal center outside `[display_x, display_x +
display_width)`, then width or height below 100. -/
def includeWindow (display_x display_width : Int) (w : CGWindow) : Option WinEntry :=
  if w.layer ≠ 0 then none
  else if w.ownerName ∈ SKIP_APPS then none
  else
    w.bounds.bind (fun b =>
      if b.x + b.width / 2 < (display_x : ℚ) ∨
          b.x + b.width / 2 ≥ (display_x : ℚ) + (display_width : ℚ) then none
      else if b.width < 100 ∨ b.height < 100 then none
      else some ⟨w.ownerName, w.ownerPID, w.windowNumber, b⟩)

/-- `get_windows_on_display(display_x, display_y, display_width,
display_height)`: iterate over the on-screen window list in order, appending
the entries of the windows that survive all filters. -/
def get_windows_on_display (display_x display_y display_width display_height : Int)
    (window_list : List CGWindow) : List WinEntry :=
  match window_list with
  | [] => []
  | w :: rest =>
    match includeWindow display_x display_width w with
    | some e => e :: get_windows_on_display display_x display_y display_width display_height rest
    | none => get_windows_on_display display_x display_y display_width display_height rest

lemma get_windows_eq_filterMap (display_x display_y display_width display_height : Int)
    (ws : List CGWindow) :
    get_windows_on_display display_x display_y display_width display_height ws =
      ws.filterMap (includeWindow display_x display_width) := by
  induction ws with
  | nil => rfl
  | cons w rest ih =>
    rw [get_windows_on_display, List.filterMap_cons]
    cases h : includeWindow display_x display_width w with
    | none => rw [ih]
    | some e => rw [ih]

/-- C5: the enumerator keeps exactly the windows of layer 0, owner not on the
denylist, carrying bounds whose horizontal center lies in the half-open
interval `[display_x, display_x + display_width)` and whose width and height
are both at least 100; the returned list is the input list filtered (in
order) by that predicate. A denylisted window is excluded whatever its other
fields, an under-100 window is excluded wherever it lies, and a window whose
center x equals exactly `display_x + display_width` is excluded. -/
theorem get_windows_on_display_filter (display_x display_y display_width display_height : Int)
    (ws : List CGWindow) :
    get_windows_on_display display_x display_y display_width display_height ws =
      ws.filterMap (includeWindow display_x display_width) ∧
    ∀ w : CGWindow, (includeWindow display_x display_width w).isSome = true ↔
      (w.layer = 0 ∧ w.ownerName ∉ SKIP_APPS ∧
        ∃ b : Bounds, w.bounds = some b ∧
          (display_x : ℚ) ≤ b.x + b.width / 2 ∧
          b.x + b.width / 2 < (display_x : ℚ) + (display_width : ℚ) ∧
          100 ≤ b.width ∧ 100 ≤ b.height) := by
  refine ⟨get_windows_eq_filterMap display_x display_y display_width display_height ws, ?_⟩
  intro w
  unfold includeWindow
  constructor
  · intro hsome
    by_cases h1 : w.layer ≠ 0
    · rw [if_pos h1] at hsome
      cases hsome
    rw [if_neg h1] at hsome
    by_cases h2 : w.ownerName ∈ SKIP_APPS
    · rw [if_pos h2] at hsome
      cases hsome
    rw [if_neg h2] at hsome
    cases hb : w.bounds with
    | none =>
      rw [hb, Option.none_bind] at hsome
      cases hsome
    | some b =>
      rw [hb, Option.some_bind] at hsome
      by_cases h3 : b.x + b.width / 2 < (display_x : ℚ) ∨
          b.x + b.width / 2 ≥ (display_x : ℚ) + (display_width : ℚ)
      · rw [if_pos h3] at hsome
        cases hsome
      rw [if_neg h3] at hsome
      by_cases h4 : b.width < 100 ∨ b.height < 100
      · rw [if_pos h4] at hsome
        cases hsome
      push_neg at h3 h4
      exact ⟨not_not.mp h1, h2, b, rfl, h3.1, h3.2, h4.1, h4.2⟩
  · rintro ⟨h1, h2, b, hb, h3, h4, h5, h6⟩
    rw [if_neg (by simp [h1]), if_neg h2, hb, Option.some_bind,
      if_neg (by push_neg; exact ⟨h3, h4⟩), if_neg (by push_neg; exact ⟨h5, h6⟩)]
    rfl

/-- A layer-0 800x600 window owned by Safari, centered on the demo display. -/
def wGood : CGWindow := ⟨0, "Safari", some ⟨100, 100, 800, 600⟩, 42, 7⟩

/-- Witness for C5: at display bounds (0, 0, 1728, 1117) the Safari window is
included — layer 0, not denylisted, center 500 inside [0, 1728), and both
dimensions at least 100. -/
theorem get_windows_on_display_filter_witness :
    (includeWindow 0 1728 wGood).isSome = true :=
  ((get_windows_on_display_filter 0 0 1728 1117 []).2 wGood).mpr
    ⟨rfl, by decide, ⟨100, 100, 800, 600⟩, rfl, by norm_num, by norm_num,
      by norm_num, by norm_num⟩

/-- An accessibility window element (an opaque AXUIElement handle). -/
structure AXWindow where
  idx : Int
deriving DecidableEq

/-- An AXValue returned by a successful AXValueCreate. -/
inductive AXValue
  | mk
deriving DecidableEq

/-- The value-kind constant passed to AXValueCreate (kAXValueTypeCGPoint or
kAXValueTypeCGSize). -/
inductive AXValueKind
  | cgPoint
  | cgSize
deriving DecidableEq

/-- kAXErrorSuccess of the Accessibility API. -/
def kAXErrorSuccess : Int := 0

/-- The accessibility environment of windows.py: `copyWindows pid` is the
`(err, windows)` pair returned by `AXUIElementCopyAttributeValue(app,
"AXWindows", None)` for the application with that process id (an empty list
also embeds a falsy None result), and `valueCreate` is `AXValueCreate`, with
`none` embedding creation failure. The `AXUIElementSetAttributeValue` calls
return nothing the code reads, so they have no observable in the embedding. -/
structure AxEnv where
  copyWindows : Int → Int × List AXWindow
  valueCreate : AXValueKind → Int × Int → Option AXValue

/-- The counting loop of `resize_all_app_windows_ax` (windows.py lines
180-201): for every window, attempt to create the position and size values
(setting the attributes when creation succeeds) and increment the count
unconditionally. -/
def resizeLoop (ax : AxEnv) (tx ty tw th : Int) : List AXWindow → Nat → Nat
  | [], count => count
  | _w :: rest, count =>
    let _position_value := ax.valueCreate AXValueKind.cgPoint (tx, ty)
    let _size_value := ax.valueCreate AXValueKind.cgSize (tw, th)
    resizeLoop ax tx ty tw th rest (count + 1)

/-- `resize_all_app_windows_ax(pid, ...)` (windows.py lines 161-203): query
the application's window list; on a non-success error code or an empty (falsy)
list return 0, otherwise run the counting loop from 0. -/
def resize_all_app_windows_ax (ax : AxEnv) (pid tx ty tw th : Int) : Nat :=
  if (ax.copyWindows pid).1 ≠ kAXErrorSuccess ∨ (ax.copyWindows pid).2 = [] then 0
  else resizeLoop ax tx ty tw th (ax.copyWindows pid).2 0

/-- Instrumentation record of one `resize_all_app_windows_ax` invocation made
by the tiler: the pid and target geometry passed, and the returned count. -/
structure ResizeCall where
  pid : Int
  x : Int
  y : Int
  width : Int
  height : Int
  ret : Nat
deriving DecidableEq

/-- Result of one tiling pass: the returned `resized_count` together with the
trace of resize invocations, in order. -/
structure TileResult where
  resized_count : Nat
  calls : List ResizeCall
deriving DecidableEq

/-- The pid-deduplicating loop of `tile_windows_on_display` (windows.py lines
238-250): skip a window whose pid is in `pids_processed`, otherwise mark the
pid, invoke `resize_all_app_windows_ax` once for it, and add the returned
count to `resized_count` when positive. -/
def tileGo (ax : AxEnv) (tx ty tw th : Int) : List WinEntry → List Int → TileResult
  | [], _ => ⟨0, []⟩
  | w :: rest, pids_processed =>
    if w.pid ∈ pids_processed then tileGo ax tx ty tw th rest pids_processed
    else
      let count := resize_all_app_windows_ax ax w.pid tx ty tw th
      let r := tileGo ax tx ty tw th rest (w.pid :: pids_processed)
      ⟨(if 0 < count then count else 0) + r.resized_count,
        ⟨w.pid, tx, ty, tw, th, count⟩ :: r.calls⟩

/-- `tile_windows_on_display` (windows.py lines 206-251) with its invocation
trace: compute the padded target geometry, enumerate the windows on the
display, then deduplicate by pid and resize each application's windows once. -/
def tileRun (ax : AxEnv) (display_x display_y display_width display_height : Int)
    (window_list : List CGWindow) : TileResult :=
  let target_x := display_x + PADDING_HORIZONTAL
  let target_y := display_y + PADDING_TOP
  let target_width := display_width - 2 * PADDING_HORIZONTAL
  let target_height := display_height - PADDING_TOP - PADDING_BOTTOM
  let windows := get_windows_on_display display_x display_y display_width display_height window_list
  tileGo ax target_x target_y target_width target_height windows []

/-- The value `tile_windows_on_display` actually returns: the resized count. -/
def tile_windows_on_display (ax : AxEnv)
    (display_x display_y display_width display_height : Int)
    (window_list : List CGWindow) : Nat :=
  (tileRun ax display_x display_y display_width display_height window_list).resized_count

/-- First-seen-order deduplication relative to an already-seen list; the
specification-side counterpart of the `pids_processed` set of the tiler. -/
def dedupKeepFirstAux : List Int → List Int → List Int
  | [], _ => []
  | x :: xs, seen =>
    if x ∈ seen then dedupKeepFirstAux xs seen
    else x :: dedupKeepFirstAux xs (x :: seen)

/-- First-seen-order deduplication of a list of pids. -/
def dedupKeepFirst (xs : List Int) : List Int :=
  dedupKeepFirstAux xs []

lemma natGuard (n : Nat) : (if 0 < n then n else 0) = n := by
  cases n <;> simp

lemma resizeLoop_count (ax : AxEnv) (tx ty tw th : Int) :
    ∀ (ws : List AXWindow) (count : Nat),
      resizeLoop ax tx ty tw th ws count = count + ws.length := by
  intro ws
  induction ws with
  | nil => intro count; rfl
  | cons w rest ih =>
    intro count
    rw [resizeLoop, ih]
    simp only [List.length_cons]
    omega

lemma tileGo_cons_mem (ax : AxEnv) (tx ty tw th : Int) (w : WinEntry)
    (rest : List WinEntry) (seen : List Int) (h : w.pid ∈ seen) :
    tileGo ax tx ty tw th (w :: rest) seen = tileGo ax tx ty tw th rest seen := by
  rw [tileGo, if_pos h]

lemma tileGo_cons_new (ax : AxEnv) (tx ty tw th : Int) (w : WinEntry)
    (rest : List WinEntry) (seen : List Int) (h : w.pid ∉ seen) :
    tileGo ax tx ty tw th (w :: rest) seen =
      ⟨(if 0 < resize_all_app_windows_ax ax w.pid tx ty tw th
          then resize_all_app_windows_ax ax w.pid tx ty tw th else 0) +
          (tileGo ax tx ty tw th rest (w.pid :: seen)).resized_count,
        ⟨w.pid, tx, ty, tw, th, resize_all_app_windows_ax ax w.pid tx ty tw th⟩ ::
          (tileGo ax tx ty tw th rest (w.pid :: seen)).calls⟩ := by
  rw [tileGo, if_neg h]

lemma tileGo_spec (ax : AxEnv) (tx ty tw th : Int) :
    ∀ (ws : List WinEntry) (seen : List Int),
      ((tileGo ax tx ty tw th ws seen).calls.map ResizeCall.pid =
        dedupKeepFirstAux (ws.map WinEntry.pid) seen) ∧
      (∀ c ∈ (tileGo ax tx ty tw th ws seen).calls,
        c.x = tx ∧ c.y = ty ∧ c.width = tw ∧ c.height = th ∧
        c.ret = resize_all_app_windows_ax ax c.pid tx ty tw th) ∧
      (tileGo ax tx ty tw th ws seen).resized_count =
        ((tileGo ax tx ty tw th ws seen).calls.map ResizeCall.ret).sum := by
  intro ws
  induction ws with
  | nil =>
    intro seen
    refine ⟨rfl, ?_, rfl⟩
    intro c hc
    cases hc
  | cons w rest ih =>
    intro seen
    by_cases h : w.pid ∈ seen
    · have hd : dedupKeepFirstAux ((w :: rest).map WinEntry.pid) seen =
          dedupKeepFirstAux (rest.map WinEntry.pid) seen := by
        rw [List.map_cons, dedupKeepFirstAux, if_pos h]
      rw [tileGo_cons_mem ax tx ty tw th w rest seen h, hd]
      exact ih seen
    · obtain ⟨ih1, ih2, ih3⟩ := ih (w.pid :: seen)
      rw [tileGo_cons_new ax tx ty tw th w rest seen h]
      refine ⟨?_, ?_, ?_⟩
      · rw [List.map_cons, List.map_cons, dedupKeepFirstAux, if_neg h, ih1]
      · intro c hc
        rcases List.mem_cons.mp hc with rfl | hc
        · exact ⟨rfl, rfl, rfl, rfl, rfl⟩
        · exact ih2 c hc
      · rw [List.map_cons, List.sum_cons, natGuard, ih3]

lemma dedupKeepFirstAux_mem :
    ∀ (xs seen : List Int) (y : Int),
      y ∈ dedupKeepFirstAux xs seen ↔ y ∈ xs ∧ y ∉ seen := by
  intro xs
  induction xs with
  | nil =>
    intro seen y
    simp [dedupKeepFirstAux]
  | cons x xs ih =>
    intro seen y
    by_cases h : x ∈ seen
    · rw [dedupKeepFirstAux, if_pos h, ih]
      constructor
      · rintro ⟨hy, hs⟩
        exact ⟨List.mem_cons.mpr (Or.inr hy), hs⟩
      · rintro ⟨hy, hs⟩
        rcases List.mem_cons.mp hy with rfl | hy
        · exact absurd h hs
        · exact ⟨hy, hs⟩
    · rw [dedupKeepFirstAux, if_neg h]
      constructor
      · intro hy
        rcases List.mem_cons.mp hy with rfl | hy
        · exact ⟨List.mem_cons_self _ _, h⟩
        · obtain ⟨h1, h2⟩ := (ih (x :: seen) y).mp hy
          have h3 : y ∉ seen := fun hc => h2 (List.mem_cons.mpr (Or.inr hc))
          exact ⟨List.mem_cons.mpr (Or.inr h1), h3⟩
      · rintro ⟨hy, hs⟩
        by_cases hyx : y = x
        · subst hyx
          exact List.mem_cons_self _ _
        · rcases List.mem_cons.mp hy with rfl | hy2
          · exact absurd rfl hyx
          · refine List.mem_cons.mpr (Or.inr ((ih (x :: seen) y).mpr ⟨hy2, ?_⟩))
            intro hc
            rcases List.mem_cons.mp hc with rfl | hc
            · exact hyx rfl
            · exact hs hc

lemma dedupKeepFirstAux_nodup :
    ∀ (xs seen : List Int), (dedupKeepFirstAux xs seen).Nodup := by
  intro xs
  induction xs with
  | nil => intro seen; exact List.nodup_nil
  | cons x xs ih =>
    intro seen
    by_cases h : x ∈ seen
    · rw [dedupKeepFirstAux, if_pos h]
      exact ih seen
    · rw [dedupKeepFirstAux, if_neg h]
      refine List.nodup_cons.mpr ⟨?_, ih (x :: seen)⟩
      intro hc
      exact ((dedupKeepFirstAux_mem xs (x :: seen) x).mp hc).2 (List.mem_cons_self _ _)

lemma tileRun_eq (ax : AxEnv) (dx dy dw dh : Int) (cg : List CGWindow) :
    tileRun ax dx dy dw dh cg =
      tileGo ax (dx + PADDING_HORIZONTAL) (dy + PADDING_TOP)
        (dw - 2 * PADDING_HORIZONTAL) (dh - PADDING_TOP - PADDING_BOTTOM)
        (get_windows_on_display dx dy dw dh cg) [] := rfl

/-- C3: in one tiling pass over the enumerated windows, the trace of resize
invocations lists exactly the distinct pids of the enumerated windows in
first-seen order (so each distinct pid receives exactly one invocation and
every distinct pid receives one), and the returned resized count is the sum
of the counts returned by those invocations — not the number of windows. -/
theorem tile_windows_dedup (ax : AxEnv) (dx dy dw dh : Int) (cg : List CGWindow) :
    ((tileRun ax dx dy dw dh cg).calls.map ResizeCall.pid =
      dedupKeepFirst ((get_windows_on_display dx dy dw dh cg).map WinEntry.pid)) ∧
    ((tileRun ax dx dy dw dh cg).calls.map ResizeCall.pid).Nodup ∧
    (∀ q : Int, q ∈ (tileRun ax dx dy dw dh cg).calls.map ResizeCall.pid ↔
      q ∈ (get_windows_on_display dx dy dw dh cg).map WinEntry.pid) ∧
    (∀ c ∈ (tileRun ax dx dy dw dh cg).calls,
      c.ret = resize_all_app_windows_ax ax c.pid (dx + PADDING_HORIZONTAL)
        (dy + PADDING_TOP) (dw - 2 * PADDING_HORIZONTAL)
        (dh - PADDING_TOP - PADDING_BOTTOM)) ∧
    tile_windows_on_display ax dx dy dw dh cg =
      ((tileRun ax dx dy dw dh cg).calls.map ResizeCall.ret).sum := by
  obtain ⟨h1, h2, h3⟩ := tileGo_spec ax (dx + PADDING_HORIZONTAL) (dy + PADDING_TOP)
    (dw - 2 * PADDING_HORIZONTAL) (dh - PADDING_TOP - PADDING_BOTTOM)
    (get_windows_on_display dx dy dw dh cg) []
  rw [tileRun_eq]
  refine ⟨h1, ?_, ?_, ?_, h3⟩
  · rw [h1]
    exact dedupKeepFirstAux_nodup _ []
  · intro q
    rw [h1, dedupKeepFirstAux_mem]
    simp
  · intro c hc
    exact (h2 c hc).2.2.2.2

/-- The demo accessibility environment: every application reports three
windows with a successful error code; AXValueCreate always fails, which must
not affect any count. -/
def axDemo : AxEnv :=
  { copyWindows := fun _ => (0, [⟨0⟩, ⟨1⟩, ⟨2⟩]),
    valueCreate := fun _ _ => none }

/-- The single resize invocation of the demo tiling pass: pid 42 at the
padded target, returning 3. -/
def cDemo : ResizeCall := ⟨42, 12, 12, 1704, 1093, 3⟩

/-- The entry `get_windows_on_display` builds from the Safari window. -/
def eGood : WinEntry := ⟨"Safari", 42, 7, ⟨100, 100, 800, 600⟩⟩

lemma includeWindow_wGood : includeWindow 0 1728 wGood = some eGood := by
  rw [includeWindow]
  rw [if_neg (by decide : ¬(wGood.layer ≠ 0))]
  rw [if_neg (by decide : ¬(wGood.ownerName ∈ SKIP_APPS))]
  rw [show wGood.bounds = some ⟨100, 100, 800, 600⟩ from rfl, Option.some_bind]
  rw [if_neg (by norm_num)]
  rw [if_neg (by norm_num)]
  rfl

lemma wins_demo : get_windows_on_display 0 0 1728 1117 [wGood] = [eGood] := by
  rw [get_windows_eq_filterMap, List.filterMap_cons, includeWindow_wGood]
  rfl

lemma tileRun_demo : tileRun axDemo 0 0 1728 1117 [wGood] = ⟨3, [cDemo]⟩ := by
  rw [tileRun_eq, wins_demo]
  decide

/-- Witness for C3: in the demo pass over one Safari window the trace is the
deduplicated pid list, and its only call returns what
`resize_all_app_windows_ax` returns for pid 42 at the padded target. -/
theorem tile_windows_dedup_witness :
    ((tileRun axDemo 0 0 1728 1117 [wGood]).calls.map ResizeCall.pid =
      dedupKeepFirst ((get_windows_on_display 0 0 1728 1117 [wGood]).map WinEntry.pid)) ∧
    cDemo.ret = resize_all_app_windows_ax axDemo cDemo.pid (0 + PADDING_HORIZONTAL)
      (0 + PADDING_TOP) (1728 - 2 * PADDING_HORIZONTAL)
      (1117 - PADDING_TOP - PADDING_BOTTOM) :=
  ⟨(tile_windows_dedup axDemo 0 0 1728 1117 [wGood]).1,
    (tile_windows_dedup axDemo 0 0 1728 1117 [wGood]).2.2.2.1 cDemo
      (by rw [tileRun_demo]; exact List.mem_singleton.mpr rfl)⟩

/-- C4: every resize invocation of a tiling pass over display bounds
(dx, dy, dw, dh) receives the single shared target geometry
(dx + padding_h, dy + padding_top, dw - 2*padding_h,
dh - padding_top - padding_bottom); with bounds (0, 0, 1728, 1117) and the
padding constants (12, 12, 12) that target is (12, 12, 1704, 1093). -/
theorem tile_target_geometry (ax : AxEnv) (dx dy dw dh : Int) (cg : List CGWindow) :
    (∀ c ∈ (tileRun ax dx dy dw dh cg).calls,
      c.x = dx + PADDING_HORIZONTAL ∧ c.y = dy + PADDING_TOP ∧
      c.width = dw - 2 * PADDING_HORIZONTAL ∧
      c.height = dh - PADDING_TOP - PADDING_BOTTOM) ∧
    ∀ c ∈ (tileRun ax 0 0 1728 1117 cg).calls,
      c.x = 12 ∧ c.y = 12 ∧ c.width = 1704 ∧ c.height = 1093 := by
  constructor
  · intro c hc
    rw [tileRun_eq] at hc
    obtain ⟨-, h2, -⟩ := tileGo_spec ax (dx + PADDING_HORIZONTAL) (dy + PADDING_TOP)
      (dw - 2 * PADDING_HORIZONTAL) (dh - PADDING_TOP - PADDING_BOTTOM)
      (get_windows_on_display dx dy dw dh cg) []
    obtain ⟨hx, hy, hw, hh, -⟩ := h2 c hc
    exact ⟨hx, hy, hw, hh⟩
  · intro c hc
    rw [tileRun_eq] at hc
    obtain ⟨-, h2, -⟩ := tileGo_spec ax (0 + PADDING_HORIZONTAL) (0 + PADDING_TOP)
      (1728 - 2 * PADDING_HORIZONTAL) (1117 - PADDING_TOP - PADDING_BOTTOM)
      (get_windows_on_display 0 0 1728 1117 cg) []
    obtain ⟨hx, hy, hw, hh, -⟩ := h2 c hc
    refine ⟨?_, ?_, ?_, ?_⟩ <;> simp [hx, hy, hw, hh, PADDING_HORIZONTAL,
      PADDING_TOP, PADDING_BOTTOM]

/-- Witness for C4: the call of the demo tiling pass over display bounds
(0, 0, 1728, 1117) carries target geometry (12, 12, 1704, 1093). -/
theorem tile_target_geometry_witness :
    cDemo.x = 12 ∧ cDemo.y = 12 ∧ cDemo.width = 1704 ∧ cDemo.height = 1093 :=
  (tile_target_geometry axDemo 0 0 1728 1117 [wGood]).2 cDemo
    (by rw [tileRun_demo]; exact List.mem_singleton.mpr rfl)

lemma sum_ret_skip (p : Int) :
    ∀ calls : List ResizeCall,
      (∀ c ∈ calls, c.pid = p → c.ret = 0) →
      (calls.map ResizeCall.ret).sum =
        ((calls.filter (fun c => c.pid != p)).map ResizeCall.ret).sum := by
  intro calls
  induction calls with
  | nil => intro _; rfl
  | cons c cs ih =>
    intro h
    have ihx := ih (fun d hd hdp => h d (List.mem_cons.mpr (Or.inr hd)) hdp)
    by_cases hc : c.pid = p
    · have hret : c.ret = 0 := h c (List.mem_cons_self _ _) hc
      simp [List.filter_cons, hc, hret, ihx]
    · simp [List.filter_cons, bne_iff_ne, hc, ihx]

/-- C9: a process whose accessibility window-list query returns a non-success
error code or an empty window list yields a zero count from
`resize_all_app_windows_ax`; the tiling pass is not aborted — every distinct
pid of the enumerated windows is still invoked — and the returned resized
count equals the sum of the counts of the other processes' invocations, the
failed process contributing zero. -/
theorem tile_skips_failed_process (ax : AxEnv) (dx dy dw dh : Int)
    (cg : List CGWindow) (p tx ty tw th : Int)
    (h : (ax.copyWindows p).1 ≠ kAXErrorSuccess ∨ (ax.copyWindows p).2 = []) :
    resize_all_app_windows_ax ax p tx ty tw th = 0 ∧
    (∀ q : Int, q ∈ (tileRun ax dx dy dw dh cg).calls.map ResizeCall.pid ↔
      q ∈ (get_windows_on_display dx dy dw dh cg).map WinEntry.pid) ∧
    tile_windows_on_display ax dx dy dw dh cg =
      (((tileRun ax dx dy dw dh cg).calls.filter (fun c => c.pid != p)).map
        ResizeCall.ret).sum := by
  have hzero : ∀ tx2 ty2 tw2 th2 : Int,
      resize_all_app_windows_ax ax p tx2 ty2 tw2 th2 = 0 := by
    intro tx2 ty2 tw2 th2
    unfold resize_all_app_windows_ax
    rw [if_pos h]
  obtain ⟨h1, h2, h3⟩ := tileGo_spec ax (dx + PADDING_HORIZONTAL) (dy + PADDING_TOP)
    (dw - 2 * PADDING_HORIZONTAL) (dh - PADDING_TOP - PADDING_BOTTOM)
    (get_windows_on_display dx dy dw dh cg) []
  refine ⟨hzero tx ty tw th, ?_, ?_⟩
  · intro q
    rw [tileRun_eq, h1, dedupKeepFirstAux_mem]
    simp
  · rw [tile_windows_on_display, tileRun_eq, h3]
    refine sum_ret_skip p _ ?_
    intro c hc hcp
    have := (h2 c hc).2.2.2.2
    rw [this, hcp]
    exact hzero _ _ _ _

/-- The accessibility environment in which pid 99's window-list query fails
with kAXErrorCannotComplete while every other application reports one
window. -/
def axFail : AxEnv :=
  { copyWindows := fun pid => if pid = 99 then (-25204, []) else (0, [⟨0⟩]),
    valueCreate := fun _ _ => some AXValue.mk }

/-- A layer-0 window of the failing process 99, on the demo display. -/
def wFail : CGWindow := ⟨0, "Zoom", some ⟨900, 100, 400, 300⟩, 99, 8⟩

/-- Witness for C9: with pid 99 failing, its resize returns 0 and the pass
over a 99-owned window and the Safari window reports the sum over the calls
of the other pids. -/
theorem tile_skips_failed_process_witness :
    resize_all_app_windows_ax axFail 99 12 12 1704 1093 = 0 ∧
    tile_windows_on_display axFail 0 0 1728 1117 [wFail, wGood] =
      (((tileRun axFail 0 0 1728 1117 [wFail, wGood]).calls.filter
        (fun c => c.pid != 99)).map ResizeCall.ret).sum :=
  ⟨(tile_skips_failed_process axFail 0 0 1728 1117 [wFail, wGood]
      99 12 12 1704 1093 (Or.inl (by decide))).1,
    (tile_skips_failed_process axFail 0 0 1728 1117 [wFail, wGood]
      99 12 12 1704 1093 (Or.inl (by decide))).2.2⟩

/-- C10: when the window-list query for a pid succeeds with a non-empty list,
`resize_all_app_windows_ax` returns the full length of that list; the count
is incremented for every window unconditionally, so it does not depend on the
AXValueCreate results — any environment with the same query results returns
the same count even if every value creation fails. -/
theorem resize_counts_all_windows (ax : AxEnv) (pid tx ty tw th : Int)
    (ws : List AXWindow) (h1 : ax.copyWindows pid = (kAXErrorSuccess, ws))
    (h2 : ws ≠ []) :
    resize_all_app_windows_ax ax pid tx ty tw th = ws.length ∧
    ∀ ax2 : AxEnv, ax2.copyWindows = ax.copyWindows →
      resize_all_app_windows_ax ax2 pid tx ty tw th = ws.length := by
  have main : ∀ ax2 : AxEnv, ax2.copyWindows = ax.copyWindows →
      resize_all_app_windows_ax ax2 pid tx ty tw th = ws.length := by
    intro ax2 hcw
    unfold resize_all_app_windows_ax
    rw [hcw, h1]
    rw [if_neg (by simp [h2])]
    rw [resizeLoop_count]
    simp
  exact ⟨main ax rfl, main⟩

/-- Witness for C10: in the demo environment, whose AXValueCreate always
fails, the resize of pid 7 still reports all three windows. -/
theorem resize_counts_all_windows_witness :
    resize_all_app_windows_ax axDemo 7 12 12 1704 1093 = 3 :=
  (resize_counts_all_windows axDemo 7 12 12 1704 1093 [⟨0⟩, ⟨1⟩, ⟨2⟩]
    rfl (by decide)).1

/-- Loop of `get_main_display_serial` (display.py lines 23-41): track the most
recently seen serial id; a line mentioning "main display" returns it when one
has been seen (the serial-label branch is an `if`/`elif`, so a line carrying
the serial label is never tested for the main-display marker). -/
def get_main_display_serial_go : List Line → Option String → Option String
  | [], _ => none
  | l :: ls, current_serial =>
    if l.hasSerialLabel then
      match l.serialIdMatch with
      | some s => get_main_display_serial_go ls (some s)
      | none => get_main_display_serial_go ls current_serial
    else if l.mentionsMain && current_serial.isSome then current_serial
    else get_main_display_serial_go ls current_serial

/-- `get_main_display_serial()` over the catalog lines. -/
def get_main_display_serial (info : List Line) : Option String :=
  get_main_display_serial_go info none

/-- The displayplacer environment: the catalog lines returned by
`get_display_info()` and, for `set_mode(serial, mode_id)`, whether the
invocation `displayplacer "id:<serial> mode:<mode_id>"` exits with status 0. -/
structure DisplayEnv where
  info : List Line
  setModeOk : String → String → Bool

/-- `set_mode(serial, mode_id)` (display.py lines 155-173): true exactly when
the external utility exits successfully. -/
def set_mode (env : DisplayEnv) (serial mode_id : String) : Bool :=
  env.setModeOk serial mode_id

/-- `find_presentation_mode(serial)` as in display.py: selection over the
parsed catalog at the configured target width. -/
def find_presentation_mode (serial : String) (info : List Line) : Option Mode :=
  find_presentation_mode_core PRESENTATION_TARGET_WIDTH (get_available_modes serial info)

/-- `set_presentation_resolution()` (display.py lines 176-195): false when no
main display is detected or no suitable mode exists, otherwise the result of
`set_mode`. Note: as defined in display.py this function returns a plain
bool. -/
def set_presentation_resolution (env : DisplayEnv) : Bool :=
  match get_main_display_serial env.info with
  | none => false
  | some serial =>
    match find_presentation_mode serial env.info with
    | none => false
    | some mode => set_mode env serial mode.id

/-- `set_normal_resolution()` (display.py lines 198-215): false when no main
display is detected or no exact scaled NORMAL_WIDTH x NORMAL_HEIGHT mode
exists, otherwise the result of `set_mode`. Note: as defined in display.py
this function takes no parameters and reads no saved state. -/
def set_normal_resolution (env : DisplayEnv) : Bool :=
  match get_main_display_serial env.info with
  | none => false
  | some serial =>
    match find_mode_for_resolution serial NORMAL_WIDTH NORMAL_HEIGHT env.info with
    | none => false
    | some mode => set_mode env serial mode.id

/-- A Python runtime error raised during an orchestration call. -/
inductive PyErr
  | typeError
deriving DecidableEq

/-- The environment of one cli.py invocation: display and accessibility
state, the on-screen window list, the main display's visible bounds, the
menu-bar toggle results, and the parsed contents of
`~/.presentation-mode-state.json` (none when the file is absent, as when
`enter` never ran). -/
structure CliEnv where
  display : DisplayEnv
  ax : AxEnv
  window_list : List CGWindow
  bounds : Int × Int × Int × Int
  hide_menubar_ok : Bool
  show_menubar_ok : Bool
  saved_state : Option Mode

/-- `load_state()` of cli.py: the saved mode, or none when no state file
exists. -/
def load_state (env : CliEnv) : Option Mode := env.saved_state

/-- Python semantics of `success, original_mode = v` when `v` is a bool:
iterating a non-iterable bool raises TypeError, whatever its value.
cli.py line 68 performs exactly this unpacking on the bool returned by
display.py's set_presentation_resolution. -/
def pyUnpackPairOfBool (_v : Bool) : Except PyErr (Bool × Option Mode) :=
  Except.error PyErr.typeError

/-- Python positional-call semantics: calling a function defined with
`params` parameters with `args` positional arguments raises TypeError unless
the counts agree. cli.py line 113 calls `set_normal_resolution(saved_mode)`
with one argument while display.py defines it with zero parameters. -/
def pyCheckArity (params args : Nat) : Except PyErr Unit :=
  if args = params then Except.ok () else Except.error PyErr.typeError

/-- `enter()` (cli.py lines 47-92): hide the menu bar (warn-only), call
set_presentation_resolution and unpack its bool result into
`(success, original_mode)`, abort with exit code 1 when not successful,
otherwise save state, query the display bounds and tile, returning 0. -/
def enter (env : CliEnv) : Except PyErr Int := do
  let _hide_ok := env.hide_menubar_ok
  let r := set_presentation_resolution env.display
  let (success, original_mode) ← pyUnpackPairOfBool r
  if success = false then
    return 1
  let _saved := original_mode
  let (x, y, width, height) := env.bounds
  let _count := tile_windows_on_display env.ax x y width height env.window_list
  return 0

/-- `exit_mode()` (cli.py lines 94-137): show the menu bar (warn-only), load
the saved state, call `set_normal_resolution(saved_mode)` — one positional
argument against a zero-parameter definition — abort with exit code 1 on a
false result, otherwise clear state, query the display bounds and tile,
returning 0. -/
def exit_mode (env : CliEnv) : Except PyErr Int := do
  let _show_ok := env.show_menubar_ok
  let saved_mode := load_state env
  let _ ← pyCheckArity 0 1
  let _use := saved_mode
  let ok := set_normal_resolution env.display
  if ok = false then
    return 1
  let (x, y, width, height) := env.bounds
  let _count := tile_windows_on_display env.ax x y width height env.window_list
  return 0

/-- C7 (refuted by the code as written): the claim says enter and exit return
exit code 0 on success and 1 on fatal mode-switch failure, aborting before
the bounds query and tiling. In the src tree, however, cli.enter unpacks two
values from the bool returned by display.set_presentation_resolution and
cli.exit_mode passes one argument to the zero-parameter
display.set_normal_resolution, so in every environment both operations raise
TypeError instead of returning any exit code. -/
theorem enter_exit_raise_typeError :
    ∀ env : CliEnv, enter env = Except.error PyErr.typeError ∧
      exit_mode env = Except.error PyErr.typeError := by
  intro env
  exact ⟨rfl, rfl⟩

/-- C8 (refuted by the code as written): the claim says running exit with no
prior state must not crash, since exit-target-mode computation reads no saved
state. display.set_normal_resolution indeed reads no saved state, but
cli.exit_mode passes the loaded state to it as an argument it does not
accept, so exit raises TypeError on every invocation with no state file —
and equally on the second invocation in a row. -/
theorem exit_without_state_crashes :
    ∀ env : CliEnv, env.saved_state = none →
      exit_mode env = Except.error PyErr.typeError := by
  intro env _
  rfl

/-- A cli environment in which enter never ran: no saved state. -/
def cliDemoEnv : CliEnv :=
  { display := { info := [], setModeOk := fun _ _ => true },
    ax := axDemo, window_list := [], bounds := (0, 0, 1728, 1117),
    hide_menubar_ok := true, show_menubar_ok := true, saved_state := none }

/-- Witness for C8: with no saved state, exit raises TypeError (both the
first and the second invocation evaluate to the same result). -/
theorem exit_without_state_crashes_witness :
    exit_mode cliDemoEnv = Except.error PyErr.typeError :=
  exit_without_state_crashes cliDemoEnv rfl

end PresentationMode
